import Mathlib

/-!
Verification development for the algo_owls CLI build/run/verify harness.

The Rust sources are shallowly embedded: pure logic is translated into Lean
functions; filesystem and process effects are supplied through explicit
environment records whose fields stand for the outcomes of the corresponding
OS calls.  Machine integers (`usize`) are modelled as `Nat` with explicit
wrap-around modulo `2 ^ 64` where the source can overflow (release-build
semantics of Rust arithmetic).  Paths are modelled as `/`-separated UTF-8
strings; `Path::extension`, `file_stem`, `parent` and `push` are translated
to string functions with the same observable behaviour on such paths.
-/

namespace AlgoOwls

/-- Width of Rust `usize` on the 64-bit targets the tool ships for. -/
def U64 : Nat := 2 ^ 64

/-- Wrapping `usize` addition (Rust release-build semantics). -/
def uadd (a b : Nat) : Nat := (a + b) % U64

/-- Wrapping `usize` subtraction (Rust release-build semantics). -/
def usub (a b : Nat) : Nat := (a + (U64 - b % U64)) % U64

/-- Embedding of `common::OwlError` (src/common/owl_error.rs). -/
inductive OwlError where
  | commandNotFound (expr : String)
  | fileError (expr errInfo : String)
  | llmError (expr errInfo : String)
  | networkError (expr errInfo : String)
  | processError (expr errInfo : String)
  | testFailure (expr : String)
  | tomlError (expr errInfo : String)
  | tuiError (expr errInfo : String)
  | unsupported (expr : String)
  | uriError (expr errInfo : String)
deriving DecidableEq, Repr

/-- Structural character-level splitting (same observable behaviour as
`String::split` on a one-character separator; defined by structural
recursion so that concrete instances evaluate inside the kernel). -/
def splitOnCharAux (c : Char) : List Char → List Char → List (List Char)
  | [], acc => [acc.reverse]
  | x :: xs, acc =>
    if x = c then acc.reverse :: splitOnCharAux c xs []
    else splitOnCharAux c xs (x :: acc)

/-- Splits a character list on every occurrence of `c`. -/
def splitOnChar (c : Char) (l : List Char) : List (List Char) :=
  splitOnCharAux c l []

/-- Joins character lists with the separator `c` (inverse of `splitOnChar`). -/
def joinWithChar (c : Char) : List (List Char) → List Char
  | [] => []
  | [x] => x
  | x :: xs => x ++ c :: joinWithChar c xs

/-- Last `/`-separated component of a path: `Path::file_name`
(empty string models the `None` cases, which do not arise for the
file paths the harness manipulates). -/
def pathFileName (p : String) : String :=
  String.mk ((splitOnChar '/' p.data).getLastD [])

/-- Embedding of `Path::extension`: the part of the file name after the last
dot, unless there is no dot or the only dot is the leading one. -/
def pathExtension (p : String) : Option String :=
  match splitOnChar '.' (pathFileName p).data with
  | [] => none
  | [_] => none
  | first :: rest =>
    if first = [] ∧ rest.length = 1 then none
    else some (String.mk (rest.getLastD []))

/-- Embedding of `Path::file_stem`: the file name with its extension
(as computed by `pathExtension`) removed. -/
def pathFileStem (p : String) : String :=
  let name := pathFileName p
  match splitOnChar '.' name.data with
  | [] => name
  | [_] => name
  | first :: rest =>
    if first = [] ∧ rest.length = 1 then name
    else String.mk (joinWithChar '.' ((first :: rest).dropLast))

/-- Option-valued `file_stem`, `none` exactly when the path has no file name
(the source's `file_stem().and_then(OsStr::to_str)` `None` case). -/
def pathFileStemOpt (p : String) : Option String :=
  if pathFileName p = "" then none else some (pathFileStem p)

/-- Embedding of `Path::parent` (as a string; `""` models `Some("")`). -/
def pathParent (p : String) : String :=
  String.mk (joinWithChar '/' ((splitOnChar '/' p.data).dropLast))

/-- Embedding of `PathBuf::push` for a relative file-name component. -/
def pathPush (dir name : String) : String :=
  if dir = "" then name else dir ++ "/" ++ name

/-- Captured state of a spawned child process with piped streams: the
outcomes of `wait` (exit-status success flag), of the optional write to its
standard input, and of draining each output stream to a UTF-8 string
(`Except.error` is an I/O or decoding failure carrying its message). -/
structure ChildOut where
  stdinWrite : Except String Unit
  waitResult : Except String Bool
  stdoutRead : Except String String
  stderrRead : Except String String

/-- Captured outcome of `std::process::Command::output()`: exit-status
success flag plus each stream decoded from bytes by `String::from_utf8`
(`Except.error` is a decoding failure carrying its message).  The source
calls `.output().expect(..)`, aborting on spawn failure, so the model
assumes the spawn itself succeeds. -/
structure ProcOut where
  success : Bool
  stdout : Except String String
  stderr : Except String String

/-- Environment for process execution: `output` answers the
`Command::output()` calls of `build`/`version`, `spawnChild` answers the
piped `spawn` calls of `run_cmd`/`run_cmd_with_stdin` (keyed by program,
arguments and optional stdin payload), and `elapsed` is the wall-clock
duration oracle for the spawn-to-drain window (milliseconds). -/
structure ExecEnv where
  output : String → List String → ProcOut
  spawnChild : String → List String → Option String → Except String ChildOut
  elapsed : String → List String → Nat

/-- Embedding of `cmd_utils::stdout_else_stderr` (src/owl_utils/cmd/cmd_utils.rs).
On successful exit the drained standard output is returned; a drain/decoding
failure is a `fileError`.  On non-zero exit the drained standard error with
the literal trailing note is wrapped in a `processError`. -/
def stdout_else_stderr (cmd_tag : String) (child : ChildOut) : Except OwlError String :=
  match child.waitResult with
  | .error e => .error (.processError ("[" ++ cmd_tag ++ "] not running") e)
  | .ok statusSuccess =>
    if statusSuccess then
      match child.stdoutRead with
      | .ok buffer => .ok buffer
      | .error e =>
        .error (.fileError ("'" ++ cmd_tag ++ "': failed to read stdout") e)
    else
      match child.stderrRead with
      | .ok buffer =>
        .error (.processError ("'" ++ cmd_tag ++ "': exit with status failed")
          (buffer ++ "(run program manually for stack trace)"))
      | .error e =>
        .error (.fileError ("'" ++ cmd_tag ++ "': failed to read stderr") e)

/-- Embedding of the source function `cmd_utils` run-command helper (named `runCmd` here because its source name is a reserved token in this Lean setup): spawn with piped streams, then
`stdout_else_stderr`, pairing the captured text with the elapsed duration. -/
def runCmd (env : ExecEnv) (cmd_tag : String) (prog : String) (args : List String) :
    Except OwlError (String × Nat) :=
  match env.spawnChild prog args none with
  | .error e => .error (.processError ("[" ++ cmd_tag ++ "] failed to spawn") e)
  | .ok child =>
    (stdout_else_stderr cmd_tag child).map (fun stdout => (stdout, env.elapsed prog args))

/-- Embedding of the source run-with-stdin helper (`runCmdWithStdin` here, for the same lexical reason): spawn with a piped standard
input, write the payload (on a write failure the child is still waited on and
the write error is surfaced), then `stdout_else_stderr`. -/
def runCmdWithStdin (env : ExecEnv) (cmd_tag : String) (prog : String)
    (args : List String) (input : String) : Except OwlError (String × Nat) :=
  match env.spawnChild prog args (some input) with
  | .error e => .error (.processError ("[" ++ cmd_tag ++ "] failed to spawn") e)
  | .ok child =>
    match child.stdinWrite with
    | .error e =>
      match child.waitResult with
      | .error we => .error (.processError ("[" ++ cmd_tag ++ "] not running") we)
      | .ok _ =>
        .error (.fileError "Failed not write to stdin of child process" e)
    | .ok _ =>
      (stdout_else_stderr cmd_tag child).map
        (fun stdout => (stdout, env.elapsed prog args))

/-- Embedding of `cmd_utils::run_binary`: the target is invoked as
`./<path>` with no arguments (paths are valid UTF-8 in the model, so the
`to_str` failure branch of the source does not arise). -/
def run_binary (env : ExecEnv) (exe : String) : Except OwlError (String × Nat) :=
  runCmd env "./binary" ("./" ++ exe) []

/-- Embedding of `cmd_utils::run_binary_with_stdin`. -/
def run_binary_with_stdin (env : ExecEnv) (exe : String) (input : String) :
    Except OwlError (String × Nat) :=
  runCmdWithStdin env "./binary" ("./" ++ exe) [] input

/-- Position of the executable-output flag relative to the source path in a
compiler invocation (src/owl_utils/cmd/prog_utils.rs `ArgsPosition`). -/
inductive ArgsPosition where
  | post
  | pre
deriving DecidableEq, Repr

/-- Parameters of the compile-to-binary language shape (`ComptimeLang`). -/
structure ComptimeLang where
  name : String
  cmd_str : String
  ver_arg : String
  build_cmd_str : String
  build_args : List String
  exe_flag : Option (String × ArgsPosition)
  fn_build_files : Option (String → List String)

/-- Parameters of the interpret-directly language shape (`RuntimeLang`). -/
structure RuntimeLang where
  name : String
  cmd_str : String
  cmd_args : List String
  ver_arg : String

/-- Parameters of the compile-with-custom-artifact-naming shape (`CustomLang`). -/
structure CustomLang where
  name : String
  build_cmd_str : String
  build_args : List String
  run_cmd_str : String
  run_args : List String
  ver_arg : String
  fn_build_files : Option (String → List String)
  fn_target_name : String → String

/-- Parameters of the bespoke Erlang shape (`ErlLang`). -/
structure ErlLang where
  name : String
  cmd_str : String
  build_args : List String
  post_run_args : List String
  pre_run_args : List String
  ver_args : List String
  fn_target_name : String → String

/-- Embedding of `ErlLang::new`. -/
def ErlLang.new : ErlLang where
  name := "erlang"
  cmd_str := "erl"
  build_args := ["-compile"]
  post_run_args := ["-s", "init", "stop", "-noshell"]
  pre_run_args := ["-run"]
  ver_args := ["-s", "erlang", "halt"]
  fn_target_name := fun target_stem => target_stem ++ ".beam"

/-- Parameters of the bespoke OCaml shape (`OcamlLang`). -/
structure OcamlLang where
  name : String
  cmd_str : String
  ver_arg : String
  build_cmd_str : String
  build_args : List String

/-- Embedding of `OcamlLang::new`. -/
def OcamlLang.new : OcamlLang where
  name := "ocaml"
  cmd_str := "ocamlopt"
  ver_arg := "--version"
  build_cmd_str := "ocamlopt"
  build_args := ["-I", "+unix", "unix.cmxa", "-I", "+str", "str.cmxa"]

/-- Closed sum of the registered language shapes, standing for the source's
`Box<dyn ProgLang>` trait objects. -/
inductive ProgLang where
  | comptime (l : ComptimeLang)
  | runtime (l : RuntimeLang)
  | custom (l : CustomLang)
  | erlang (l : ErlLang)
  | ocaml (l : OcamlLang)

/-- Result of a successful build step (`prog_utils::BuildLog`). -/
structure BuildLog where
  target : String
  stdout : String
  build_files : Option (List String)

/-- Trait method `ProgLang::name`, dispatched over the closed shape sum. -/
def ProgLang.pname : ProgLang → String
  | .comptime l => l.name
  | .runtime l => l.name
  | .custom l => l.name
  | .erlang l => l.name
  | .ocaml l => l.name

/-- Trait method `ProgLang::should_build`. -/
def ProgLang.should_build : ProgLang → Bool
  | .comptime _ => true
  | .runtime _ => false
  | .custom _ => true
  | .erlang _ => true
  | .ocaml _ => true

/-- Trait method `ProgLang::target_path` (parent directory, file stem). -/
def ProgLang.target_path : ProgLang → String → String → String
  | .comptime _ => fun _ target_stem => target_stem
  | .runtime _ => fun parent target_stem => pathPush parent target_stem
  | .custom l => fun _ target_stem => l.fn_target_name target_stem
  | .erlang l => fun _ target_stem => l.fn_target_name target_stem
  | .ocaml _ => fun _ target_stem => target_stem

/-- Trait method `ProgLang::build_files`: incidental files the toolchain
leaves behind.  The OCaml shape computes them under the source's parent
directory; the others use bare names (or none). -/
def ProgLang.build_files : ProgLang → String → String → Option (List String)
  | .comptime l => fun _ target_stem =>
      l.fn_build_files.map (fun get_build_files => get_build_files target_stem)
  | .runtime _ => fun _ _ => none
  | .custom l => fun _ target_stem =>
      l.fn_build_files.map (fun get_build_files => get_build_files target_stem)
  | .erlang _ => fun _ _ => none
  | .ocaml _ => fun parent target_stem =>
      let output_files :=
        [target_stem ++ ".cmi", target_stem ++ ".cmx", target_stem ++ ".o"]
      let output_paths := output_files.map (fun build_name => pathPush parent build_name)
      if output_paths = [] then none else some output_paths

/-- Trait method `ProgLang::version_cmd` as a (program, arguments) pair;
every shape's implementation returns `Ok`, so the `Result` wrapper of the
source signature is dropped. -/
def ProgLang.version_cmd : ProgLang → String × List String
  | .comptime l => (l.cmd_str, [l.ver_arg])
  | .runtime l => (l.cmd_str, [l.ver_arg])
  | .custom l => (l.build_cmd_str, [l.ver_arg])
  | .erlang l => (l.cmd_str, l.ver_args)
  | .ocaml l => (l.cmd_str, [l.ver_arg])

/-- Trait method `ProgLang::build_cmd` as a (program, arguments) pair. -/
def ProgLang.build_cmd : ProgLang → String → Except OwlError (String × List String)
  | .comptime l => fun path =>
      match pathFileStemOpt path with
      | none => .error (.uriError ("'" ++ path ++ "': has no file stem") "")
      | some target_stem =>
        let extra : List String :=
          match l.exe_flag with
          | some (flag, pos) =>
            let before := if pos = ArgsPosition.post then [path] else []
            let exeArgs :=
              if flag.data.contains '=' ∨ flag.data.contains ':' then
                let exe_arg := flag ++ target_stem
                if exe_arg.data.contains ' ' then
                  (splitOnChar ' ' exe_arg.data).map String.mk
                else [exe_arg]
              else [flag, target_stem]
            let after := if pos = ArgsPosition.pre then [path] else []
            before ++ exeArgs ++ after
          | none => [path]
        .ok (l.build_cmd_str, l.build_args ++ extra)
  | .runtime l => fun path =>
      .error (.processError
        ("No build command (" ++ l.name ++ ") for '" ++ path ++ "'") "")
  | .custom l => fun path => .ok (l.build_cmd_str, l.build_args ++ [path])
  | .erlang l => fun path => .ok (l.cmd_str, l.build_args ++ [path])
  | .ocaml l => fun path =>
      match pathFileStemOpt path with
      | none => .error (.uriError ("'" ++ path ++ "': has no file stem") "")
      | some target_stem =>
        .ok (l.build_cmd_str, l.build_args ++ [path] ++ ["-o", target_stem])

/-- Trait method `ProgLang::run_it`: assemble and execute the run
invocation of the shape (direct binary vs. interpreter/runtime). -/
def ProgLang.run_it (env : ExecEnv) : ProgLang → String → Option String →
    Except OwlError (String × Nat)
  | .comptime _ => fun path stdin =>
      match stdin with
      | some input => run_binary_with_stdin env path input
      | none => run_binary env path
  | .runtime l => fun path stdin =>
      match stdin with
      | some input => runCmdWithStdin env l.cmd_str l.cmd_str (l.cmd_args ++ [path]) input
      | none => runCmd env l.cmd_str l.cmd_str (l.cmd_args ++ [path])
  | .custom l => fun path stdin =>
      match pathFileStemOpt path with
      | none => .error (.uriError ("'" ++ path ++ "': has no file stem") "")
      | some target_stem =>
        match stdin with
        | some input =>
          runCmdWithStdin env l.run_cmd_str l.run_cmd_str
            (l.run_args ++ [target_stem]) input
        | none => runCmd env l.run_cmd_str l.run_cmd_str (l.run_args ++ [target_stem])
  | .erlang l => fun path stdin =>
      match pathFileStemOpt path with
      | none => .error (.uriError ("'" ++ path ++ "': has no file stem") "")
      | some target_stem =>
        let args := l.pre_run_args ++ [target_stem] ++ l.post_run_args
        match stdin with
        | some input => runCmdWithStdin env l.cmd_str l.cmd_str args input
        | none => runCmd env l.cmd_str l.cmd_str args
  | .ocaml _ => fun path stdin =>
      match stdin with
      | some input => run_binary_with_stdin env path input
      | none => run_binary env path

/-- Default trait method `ProgLang::version`: invoke the toolchain with its
version flag and capture stdout; a non-zero exit is a `processError`, an
undecodable stream a `fileError`. -/
def ProgLang.version (lang : ProgLang) (env : ExecEnv) : Except OwlError String :=
  let vc := lang.version_cmd
  let out := env.output vc.1 vc.2
  let nm := lang.pname
  if out.success then
    match out.stdout with
    | .ok s => .ok s
    | .error e => .error (.fileError ("'" ++ nm ++ " version': could not read stdout") e)
  else
    match out.stderr with
    | .ok s => .error (.processError ("'" ++ nm ++ " version': unable to determine version") s)
    | .error e => .error (.fileError ("'" ++ nm ++ " version': could not read stderr") e)

/-- Default trait method `ProgLang::command_exists`: toolchain availability
is defined as the version invocation succeeding. -/
def ProgLang.command_exists (lang : ProgLang) (env : ExecEnv) : Bool :=
  (lang.version env).isOk

/-- Default trait method `ProgLang::build`: run the assembled build command;
on success record the target path and incidental build files, on failure
return a `processError` carrying the captured stderr plus the manual-run
note.  (The stderr-decoding failure reuses the source's literal
"could not read stdout" message, a copy in the source text.) -/
def ProgLang.build (lang : ProgLang) (env : ExecEnv) (path : String) :
    Except OwlError BuildLog :=
  match lang.build_cmd path with
  | .error e => .error e
  | .ok bc =>
    let out := env.output bc.1 bc.2
    let nm := lang.pname
    if out.success then
      match out.stdout with
      | .error e => .error (.fileError ("'" ++ nm ++ "': could not read stdout") e)
      | .ok stdoutStr =>
        match (if path = "" then none else some (pathParent path)) with
        | none => .error (.fileError ("'" ++ path ++ "': has no parent dir") "")
        | some parent =>
          match pathFileStemOpt path with
          | none => .error (.uriError ("'" ++ path ++ "': has no file stem") "")
          | some target_stem =>
            .ok { target := lang.target_path parent target_stem
                  stdout := stdoutStr
                  build_files := lang.build_files parent target_stem }
    else
      match out.stderr with
      | .error e => .error (.fileError ("'" ++ nm ++ "': could not read stdout") e)
      | .ok stderrStr =>
        .error (.processError "'build': exit with status failed"
          (stderrStr ++ "(run program manually for stack trace)"))

/-- Embedding of the language registry `prog_utils::try_prog_lang`:
maps a file extension to its language profile, `unsupported` otherwise. -/
def try_prog_lang (lang_ext : String) : Except OwlError ProgLang :=
  if lang_ext = "adb" ∨ lang_ext = "ads" then
    .ok (.comptime
      { name := "ada", cmd_str := "gnatmake", ver_arg := "--version"
        build_cmd_str := "gnatmake", build_args := ["-g", "-O2"]
        exe_flag := some ("-o", ArgsPosition.pre)
        fn_build_files := some (fun target_stem =>
          ["b~" ++ target_stem ++ ".adb", "b~" ++ target_stem ++ ".ads",
           "b~" ++ target_stem ++ ".ali", "b~" ++ target_stem ++ ".o",
           target_stem ++ ".ali", target_stem ++ ".o"]) })
  else if lang_ext = "c" then
    .ok (.comptime
      { name := "c", cmd_str := "gcc", ver_arg := "--version"
        build_cmd_str := "gcc"
        build_args := ["-g", "-O2", "-std=gnu23", "-static", "-lm"]
        exe_flag := some ("-o", ArgsPosition.pre), fn_build_files := none })
  else if lang_ext = "cpp" ∨ lang_ext = "cc" ∨ lang_ext = "C" ∨ lang_ext = "cxx" ∨
      lang_ext = "c++" then
    .ok (.comptime
      { name := "cpp", cmd_str := "g++", ver_arg := "--version"
        build_cmd_str := "g++"
        build_args := ["-g", "-O2", "-std=gnu++23", "-static", "-lrt", "-lpthread"]
        exe_flag := some ("-o", ArgsPosition.pre), fn_build_files := none })
  else if lang_ext = "cr" then
    .ok (.comptime
      { name := "crystal", cmd_str := "crystal", ver_arg := "--version"
        build_cmd_str := "crystal"
        build_args := ["build", "-O", "2", "--no-color"]
        exe_flag := some ("-o", ArgsPosition.post), fn_build_files := none })
  else if lang_ext = "dart" then
    .ok (.comptime
      { name := "dart", cmd_str := "dart", ver_arg := "--version"
        build_cmd_str := "dart", build_args := ["compile", "exe"]
        exe_flag := some ("-o", ArgsPosition.pre), fn_build_files := none })
  else if lang_ext = "erl" then .ok (.erlang ErlLang.new)
  else if lang_ext = "ex" then
    .ok (.runtime
      { name := "elixir", cmd_str := "elixir", cmd_args := [], ver_arg := "--version" })
  else if lang_ext = "go" then
    .ok (.comptime
      { name := "go", cmd_str := "go", ver_arg := "version"
        build_cmd_str := "go", build_args := ["build"]
        exe_flag := some ("-o", ArgsPosition.pre), fn_build_files := none })
  else if lang_ext = "hs" then
    .ok (.comptime
      { name := "haskell", cmd_str := "ghc", ver_arg := "--version"
        build_cmd_str := "ghc"
        build_args := ["-O2", "-ferror-spans", "-threaded", "-rtsopts", "-dynamic",
          "-outputdir", "."]
        exe_flag := some ("-o", ArgsPosition.pre)
        fn_build_files := some (fun thread_stem =>
          ["Main.o", "Main.hi", thread_stem ++ ".hi", thread_stem ++ ".o"]) })
  else if lang_ext = "java" then
    .ok (.custom
      { name := "java", build_cmd_str := "javac"
        build_args := ["-encoding", "UTF-8", "-d", "."]
        run_cmd_str := "java"
        run_args := ["-Dfile.encoding=UTF-8", "-XX:+UseSerialGC", "-Xss64m"]
        ver_arg := "--version"
        fn_target_name := fun target_stem => target_stem ++ ".class"
        fn_build_files := none })
  else if lang_ext = "jl" then
    .ok (.runtime
      { name := "julia", cmd_str := "julia", cmd_args := [], ver_arg := "--version" })
  else if lang_ext = "js" then
    .ok (.runtime
      { name := "javascript", cmd_str := "node", cmd_args := [], ver_arg := "--version" })
  else if lang_ext = "kt" then
    .ok (.custom
      { name := "kotlin", build_cmd_str := "kotlinc", build_args := []
        run_cmd_str := "kotlin", run_args := ["-J-XX:+UseSerialGC", "-J-Xss64m"]
        ver_arg := "-version"
        fn_target_name := fun target_stem =>
          match target_stem.toList with
          | [] => "Kt.class"
          | c :: rest => String.mk (c.toUpper :: rest) ++ "Kt.class"
        fn_build_files := some (fun _ => ["META-INF"]) })
  else if lang_ext = "lean" then
    .ok (.runtime
      { name := "lean", cmd_str := "lean", cmd_args := ["--run"], ver_arg := "--version" })
  else if lang_ext = "lua" then
    .ok (.runtime
      { name := "lua", cmd_str := "lua", cmd_args := [], ver_arg := "-v" })
  else if lang_ext = "ml" then .ok (.ocaml OcamlLang.new)
  else if lang_ext = "odin" then
    .ok (.comptime
      { name := "odin", cmd_str := "odin", ver_arg := "version"
        build_cmd_str := "odin", build_args := ["build"]
        exe_flag := some ("-file -out:", ArgsPosition.post), fn_build_files := none })
  else if lang_ext = "py" ∨ lang_ext = "py3" then
    .ok (.runtime
      { name := "python", cmd_str := "python3", cmd_args := [], ver_arg := "--version" })
  else if lang_ext = "rb" then
    .ok (.runtime
      { name := "ruby", cmd_str := "ruby", cmd_args := ["--yjit"], ver_arg := "--version" })
  else if lang_ext = "rs" then
    .ok (.comptime
      { name := "rust", cmd_str := "rustc", ver_arg := "--version"
        build_cmd_str := "rustc"
        build_args := ["-C", "opt-level=3", "-C", "target-cpu=native"]
        exe_flag := some ("-o", ArgsPosition.post), fn_build_files := none })
  else if lang_ext = "ts" then
    .ok (.custom
      { name := "typescript", build_cmd_str := "tsc"
        build_args := ["--module", "commonjs", "-outDir", "."]
        run_cmd_str := "node", run_args := [], ver_arg := "--version"
        fn_target_name := fun target_stem => target_stem ++ ".js"
        fn_build_files := none })
  else if lang_ext = "zig" then
    .ok (.comptime
      { name := "zig", cmd_str := "zig", ver_arg := "version"
        build_cmd_str := "zig", build_args := ["build-exe", "-O", "ReleaseFast"]
        exe_flag := some ("-femit-bin=", ArgsPosition.pre), fn_build_files := none })
  else .error (.unsupported lang_ext)

/-- Embedding of `prog_utils::check_prog_lang`: resolve the language profile
by the program path's file extension. -/
def check_prog_lang (prog : String) : Option ProgLang :=
  (pathExtension prog).bind (fun ext => (try_prog_lang ext).toOption)

/-- Embedding of `prog_utils::build_program`.  The second component records
whether `ProgLang::build` was invoked (the source reaches `lang.build(prog)`
exactly on the paths where the flag is `true`; it is instrumentation for the
fail-fast contract, not part of the source's return value). -/
def build_program (env : ExecEnv) (prog : String) :
    Except OwlError (Option BuildLog) × Bool :=
  match check_prog_lang prog with
  | some lang =>
    if lang.command_exists env then
      if lang.should_build then
        match lang.build env prog with
        | .ok build_log => (.ok (some build_log), true)
        | .error e => (.error e, true)
      else (.ok none, false)
    else
      let nm := lang.pname
      (.error (.commandNotFound ("'" ++ nm ++ "': command not found")), false)
  | none => (.ok none, false)

/-- Pure filesystem state for the cleanup contract: the set of existing
paths, plus the paths whose OS-level removal reports an error (modelling
the fallible `fs::remove_dir_all` / `fs::remove_file` calls; the two are
collapsed into one removal primitive). -/
structure FileSys where
  existing : List String
  failing : List String
deriving DecidableEq, Repr

/-- Path-existence check (`Path::exists`). -/
def FileSys.pathExists (fs : FileSys) (p : String) : Bool := fs.existing.contains p

/-- Embedding of `fs_utils::remove_path` (src/owl_utils/fs/fs_utils.rs):
removing a non-existent path is a no-op `Ok`; removing an existing path
either deletes it or surfaces the OS error as a `fileError`. -/
def remove_path (fs : FileSys) (p : String) : Except OwlError FileSys :=
  if ¬ fs.pathExists p then .ok fs
  else if fs.failing.contains p then
    .error (.fileError ("Failed to remove file '" ++ p ++ "'") "os error")
  else .ok { fs with existing := fs.existing.filter (fun q => q ≠ p) }

/-- Sequential removal of a list of paths, stopping at the first error
(the `for build_file in build_files` loop with `?`). -/
def removeAll (fs : FileSys) : List String → Except OwlError FileSys
  | [] => .ok fs
  | p :: rest =>
    match remove_path fs p with
    | .error e => .error e
    | .ok fs1 => removeAll fs1 rest

/-- Embedding of `prog_utils::cleanup_program`: delete the target only when
it differs from the original source path, then delete every side-effect
file. -/
def cleanup_program (fs : FileSys) (prog target : String)
    (build_files : Option (List String)) : Except OwlError FileSys :=
  let step1 : Except OwlError FileSys :=
    if target ≠ prog then remove_path fs target else .ok fs
  match step1 with
  | .error e => .error e
  | .ok fs1 =>
    match build_files with
    | none => .ok fs1
    | some bfs => removeAll fs1 bfs

/-- Embedding of `fs_utils::find_by_ext`, with the recursive directory walk
`dir_tree` supplied as an oracle outcome: filter the walked files by
extension; an empty match set is a hard `fileError`. -/
def find_by_ext (tree : Except OwlError (List String)) (root_dir target_ext : String) :
    Except OwlError (List String) :=
  match tree with
  | .error e => .error e
  | .ok files =>
    let n := toString files.length
    let matched := files.filter (fun file => pathExtension file = some target_ext)
    if matched = [] then
      .error (.fileError
        ("No matches found in '" ++ root_dir ++ "' with ext matching '" ++
          target_ext ++ "'")
        ("'" ++ n ++ "' files checked"))
    else .ok matched

/-- Environment of `test_subcommand::test_it`: path existence and
`fs::read_to_string` oracles, the resolved language's `command_exists`
outcome, and the two run primitives abstracted at the level test_it calls
them (target and stdin payload to captured output and elapsed duration). -/
structure TestItEnv where
  pathExists : String → Bool
  readFile : String → Except String String
  versionOk : Bool
  runWithStdin : String → String → Except OwlError (String × Nat)
  runBinaryWithStdin : String → String → Except OwlError (String × Nat)

/-- Embedding of `test_subcommand::test_it` (src/owl_core/test_subcommand.rs):
check the three paths exist, read the input and answer files, run the target
feeding the input, and classify Pass exactly when the captured output equals
the answer file contents (plain string equality, no normalization). -/
def test_it (env : TestItEnv) (target in_file ans_file : String) :
    Except OwlError Nat :=
  if ¬ env.pathExists target then
    .error (.fileError ("'" ++ target ++ "': no such file") "")
  else if ¬ env.pathExists in_file then
    .error (.fileError ("'" ++ in_file ++ "': no such file") "")
  else if ¬ env.pathExists ans_file then
    .error (.fileError ("'" ++ ans_file ++ "': no such file") "")
  else
    match env.readFile in_file with
    | .error e =>
      .error (.fileError ("could not read from '" ++ in_file ++ "'") e)
    | .ok stdinData =>
      match env.readFile ans_file with
      | .error e =>
        .error (.fileError ("could not read from '" ++ ans_file ++ "'") e)
      | .ok ans =>
        match check_prog_lang target with
        | some lang =>
          if ¬ env.versionOk then
            let nm := lang.pname
            .error (.commandNotFound ("'" ++ nm ++ "': command not found"))
          else
            match env.runWithStdin target stdinData with
            | .error e => .error e
            | .ok (actual, elapsed) =>
              if actual = ans then .ok elapsed
              else .error (.testFailure "failed test")
        | none =>
          match env.runBinaryWithStdin target stdinData with
          | .error e => .error e
          | .ok (actual, elapsed) =>
            if actual = ans then .ok elapsed
            else .error (.testFailure "failed test")

/-- Per-case I/O environment of `quest_subcommand::quest_it`: the embedded
`test_it` environment plus the three hint-display strategies (`bat`, `glow`,
raw read-and-print). -/
structure CaseIOEnv where
  testEnv : TestItEnv
  bat : String → Except OwlError Unit
  glow : String → Except OwlError Unit
  readFile : String → Except String String

/-- Best-effort hint-display chain of `quest_it`: `bat_file`, else
`glow_file`, else `fs::read_to_string` printed raw (an unreadable hint file
is a `fileError`). -/
def hintChain (env : CaseIOEnv) (feedback_path : String) : Except OwlError Unit :=
  match env.bat feedback_path with
  | .ok _ => .ok ()
  | .error _ =>
    match env.glow feedback_path with
    | .ok _ => .ok ()
    | .error _ =>
      match env.readFile feedback_path with
      | .ok _ => .ok ()
      | .error e =>
        .error (.fileError ("could not read '" ++ feedback_path ++ "'") e)

/-- Embedding of `quest_subcommand::quest_it`: derive the answer path from
the input path by the `<stem>.ans` convention, evaluate the case through
`test_it`, return `(true, elapsed)` on a pass; on any failure optionally show
the `<stem>.md` hint (a failing hint chain propagates its error) and return
`(false, none)`.  The `count`/`total` arguments only feed the printed
progress line. -/
def quest_it (env : CaseIOEnv) (target test_case : String) (count total : Nat)
    (use_hints : Bool) : Except OwlError (Bool × Option Nat) :=
  let _ := count
  let _ := total
  match pathFileStemOpt test_case with
  | none => .error (.uriError ("'" ++ test_case ++ "': has no file stem") "")
  | some in_stem =>
    let ans_str := in_stem ++ ".ans"
    let ans_path := pathPush (pathParent test_case) ans_str
    match test_it env.testEnv target test_case ans_path with
    | .ok elapsed => .ok (true, some elapsed)
    | .error _ =>
      if use_hints then
        let feedback_file := in_stem ++ ".md"
        let feedback_path := pathPush (pathParent test_case) feedback_file
        match hintChain env feedback_path with
        | .error he => .error he
        | .ok _ => .ok (false, none)
      else .ok (false, none)

/-- Case selection of the `quest` loop (src/owl_core/quest_subcommand.rs,
lines 40-52), extracted verbatim: the `(start, end, count)` triple, the
`skip(count).take(end - start)` iterator window, the per-iteration `count`
increment, and the `count % total != d % total` continue-filter.  Returns
each evaluated case paired with its `count` value (its 1-based discovery
position).  `usize` arithmetic wraps modulo `2 ^ 64`. -/
def questSelect {α : Type} (test_cases : List α) (case_id : Option Nat) :
    List (Nat × α) :=
  let total := test_cases.length
  let skipN : Nat := match case_id with | some d => usub d 1 | none => 0
  let takeN : Nat :=
    match case_id with | some d => usub (uadd d 1) d | none => usub total 0
  ((test_cases.enum.drop skipN).take takeN).filterMap (fun p =>
    let count := uadd p.1 1
    match case_id with
    | some d => if count % total = d % total then some (count, p.2) else none
    | none => some (count, p.2))

/-- One step of the quest aggregation loop: a passing case increments
`passed` and accumulates its elapsed duration; a failing case or a per-case
error increments `failed` and contributes no timing. -/
def questFoldStep (acc : Nat × Nat × Option Nat)
    (r : Except OwlError (Bool × Option Nat)) : Nat × Nat × Option Nat :=
  match r with
  | .ok (true, elapsed) =>
    let total_duration :=
      match acc.2.2, elapsed with
      | some d, some elap_time => some (d + elap_time)
      | some d, none => some d
      | none, e => e
    (acc.1 + 1, acc.2.1, total_duration)
  | .ok (false, _) => (acc.1, acc.2.1 + 1, acc.2.2)
  | .error _ => (acc.1, acc.2.1 + 1, acc.2.2)

/-- Aggregate (passed, failed, totalDuration) over the per-case outcomes. -/
def questAggregate (rs : List (Except OwlError (Bool × Option Nat))) :
    Nat × Nat × Option Nat :=
  rs.foldl questFoldStep (0, 0, none)

/-- Caller-side resolution of a `build_program` outcome into the
`(target, build_files)` pair: the `match build_program(prog)?` pattern
shared by the run, test and quest subcommands (`None` means the source file
itself is the target and there is nothing to clean). -/
def resolve_build (prog : String) (bl : Option BuildLog) :
    String × Option (List String) :=
  match bl with
  | some b => (b.target, b.build_files)
  | none => (prog, none)

/-- Environment of one `quest` invocation: outcomes of the quest-directory
check and optional fetch, the program-existence check, `build_program`
(verified separately), the `dir_tree` walk of the quest directory, the
per-case I/O environment, and `cleanup_program`. -/
structure QuestEnv where
  questDirExists : Bool
  fetchResult : Except OwlError Unit
  progExists : Bool
  buildResult : Except OwlError (Option BuildLog)
  dirTree : Except OwlError (List String)
  caseEnv : CaseIOEnv
  cleanupResult : Except OwlError Unit

/-- Observable trace of one `quest` invocation: its returned result, the
`count` positions of the cases actually passed to `quest_it`, the final
counters and accumulated duration, and whether the summary line was printed
and the cleanup call reached. -/
structure QuestTrace where
  result : Except OwlError Unit
  evaluated : List Nat
  passed : Nat
  failed : Nat
  totalDuration : Option Nat
  summaryPrinted : Bool
  cleanupAttempted : Bool
deriving Repr

/-- Trace of an aborted quest invocation (error before the case loop). -/
def questAbort (e : OwlError) : QuestTrace where
  result := .error e
  evaluated := []
  passed := 0
  failed := 0
  totalDuration := none
  summaryPrinted := false
  cleanupAttempted := false

/-- Embedding of `quest_subcommand::quest`: fetch the quest directory if
missing, require the program file, build it, discover the `in` test cases,
evaluate the selected cases accumulating passed/failed/elapsed, print the
summary, clean up, and fail exactly when `failed > 0` (a cleanup error is
returned through `?` first). -/
def quest (env : QuestEnv) (quest_path prog : String) (case_id : Option Nat)
    (use_hints : Bool) : QuestTrace :=
  match (if ¬ env.questDirExists then env.fetchResult else .ok ()) with
  | .error e => questAbort e
  | .ok _ =>
    if ¬ env.progExists then
      questAbort (.fileError ("'" ++ prog ++ "': no such file") "")
    else
      match env.buildResult with
      | .error e => questAbort e
      | .ok bl =>
        let target := (resolve_build prog bl).1
        match find_by_ext env.dirTree quest_path "in" with
        | .error e => questAbort e
        | .ok test_cases =>
          let total := test_cases.length
          let selected := questSelect test_cases case_id
          let rs := selected.map (fun pc =>
            quest_it env.caseEnv target pc.2 pc.1 total use_hints)
          let agg := questAggregate rs
          let result : Except OwlError Unit :=
            match env.cleanupResult with
            | .error ce => .error ce
            | .ok _ =>
              if agg.2.1 > 0 then .error (.testFailure "test failures")
              else .ok ()
          { result := result
            evaluated := selected.map (fun pc => pc.1)
            passed := agg.1
            failed := agg.2.1
            totalDuration := agg.2.2
            summaryPrinted := true
            cleanupAttempted := true }

/-- Environment of one `run_subcommand::run_program` invocation. -/
structure RunProgEnv where
  progExists : Bool
  buildResult : Except OwlError (Option BuildLog)
  runResult : Except OwlError (String × Nat)
  runBinaryResult : Except OwlError (String × Nat)
  cleanupResult : Except OwlError Unit

/-- Embedding of `run_subcommand::run_program` (src/owl_core/run_subcommand.rs).
The second component records whether the `cleanup_program` call was reached.
For a recognized language: build, run, clean up (a cleanup error is returned
through `?` before the run result is consulted); otherwise run the file as a
binary directly with no cleanup. -/
def run_program (env : RunProgEnv) (prog : String) : Except OwlError Unit × Bool :=
  if ¬ env.progExists then
    (.error (.fileError ("'" ++ prog ++ "': program not found") ""), false)
  else
    match check_prog_lang prog with
    | some _ =>
      match env.buildResult with
      | .error e => (.error e, false)
      | .ok _ =>
        let run_result := env.runResult
        match env.cleanupResult with
        | .error ce => (.error ce, true)
        | .ok _ => (run_result.map (fun _ => ()), true)
    | none =>
      match env.runBinaryResult with
      | .error e => (.error e, false)
      | .ok _ => (.ok (), false)

/-- Specification helper: the elapsed duration a per-case outcome
contributes to the accumulated total (only a passing case that reports a
duration contributes). -/
def passElapsed : Except OwlError (Bool × Option Nat) → Option Nat
  | .ok (true, some e) => some e
  | _ => none

/-- Specification helper: `none` for an empty list (no passing run ever
contributed), otherwise the sum of the contributions. -/
def optDurationSum (l : List Nat) : Option Nat :=
  match l with
  | [] => none
  | _ => some l.sum

/-- Specification helper: whether a per-case outcome counts as a pass. -/
def isPassOutcome : Except OwlError (Bool × Option Nat) → Bool
  | .ok (true, _) => true
  | _ => false

/-- Per-case environment in which every path exists, both test files read
back "42", and the child process echoes "42" in 7ms: a passing case. -/
def passingCaseEnv : CaseIOEnv where
  testEnv :=
    { pathExists := fun _ => true
      readFile := fun _ => .ok "42"
      versionOk := true
      runWithStdin := fun _ _ => .ok ("42", 7)
      runBinaryWithStdin := fun _ _ => .ok ("42", 7) }
  bat := fun _ => .error (.processError "Failed to bat file" "status failed")
  glow := fun _ => .error (.processError "Failed to glow file" "status failed")
  readFile := fun _ => .ok "hint"

/-- Quest environment for the aggregation counterexample: one discovered
case that passes, but the final cleanup reports a filesystem error. -/
def c3Env : QuestEnv where
  questDirExists := true
  fetchResult := .ok ()
  progExists := true
  buildResult := .ok none
  dirTree := .ok ["q/1.in"]
  caseEnv := passingCaseEnv
  cleanupResult := .error (.fileError "Failed to remove file 'sol'" "os error")

/-- Per-case environment whose run mismatches the answer on the first case
("boom" versus "42") and whose hint-display chain fails entirely, so the
first case yields a per-case error from `quest_it`. -/
def failingHintCaseEnv : CaseIOEnv where
  testEnv :=
    { pathExists := fun _ => true
      readFile := fun p => if p = "q/1.in" then .ok "boom" else .ok "42"
      versionOk := true
      runWithStdin := fun _ stdinData => .ok (stdinData, 7)
      runBinaryWithStdin := fun _ stdinData => .ok (stdinData, 7) }
  bat := fun _ => .error (.processError "Failed to bat file" "status failed")
  glow := fun _ => .error (.processError "Failed to glow file" "status failed")
  readFile := fun _ => .error "permission denied"

/-- Quest environment for the error-isolation witness: two discovered cases,
the first erroring inside `quest_it` (failed hint chain after a mismatch),
the second passing; cleanup succeeds. -/
def c4Env : QuestEnv where
  questDirExists := true
  fetchResult := .ok ()
  progExists := true
  buildResult := .ok none
  dirTree := .ok ["q/1.in", "q/2.in"]
  caseEnv := failingHintCaseEnv
  cleanupResult := .ok ()

/-- Quest environment for the empty-discovery witness: the walked quest
directory holds two files, neither with extension `in`. -/
def c9Env : QuestEnv where
  questDirExists := true
  fetchResult := .ok ()
  progExists := true
  buildResult := .ok none
  dirTree := .ok ["q/readme.md", "q/1.ans"]
  caseEnv := passingCaseEnv
  cleanupResult := .ok ()

/-- Quest environment for the cleanup-contract witness: one passing case and
a failing final cleanup. -/
def c8QuestEnv : QuestEnv where
  questDirExists := true
  fetchResult := .ok ()
  progExists := true
  buildResult := .ok none
  dirTree := .ok ["q/1.in"]
  caseEnv := passingCaseEnv
  cleanupResult := .error (.fileError "Failed to remove file 'sol'" "os error")

/-- Run environment for the cleanup-contract witness: successful build with
no build step, successful run and successful cleanup. -/
def c8RunEnv : RunProgEnv where
  progExists := true
  buildResult := .ok none
  runResult := .ok ("42", 7)
  runBinaryResult := .ok ("42", 7)
  cleanupResult := .ok ()

/-- Execution environment in which every spawned command exits with status
failure: every toolchain's version check fails. -/
def failingExecEnv : ExecEnv where
  output := fun _ _ => { success := false, stdout := .ok "", stderr := .ok "" }
  spawnChild := fun _ _ _ =>
    .ok { stdinWrite := .ok (), waitResult := .ok false
          stdoutRead := .ok "", stderrRead := .ok "" }
  elapsed := fun _ _ => 0

/-- Test environment for the exact-match witness: all files present, the
input file reads "3", the answer file reads "3", and the program echoes its
standard input. -/
def c1Env : TestItEnv where
  pathExists := fun _ => true
  readFile := fun p => if p = "sol.ans" then .ok "3" else .ok "3"
  versionOk := true
  runWithStdin := fun _ stdinData => .ok (stdinData, 5)
  runBinaryWithStdin := fun _ stdinData => .ok (stdinData, 5)

/-! ## Theorems -/

/-- C6: for every command run through the process executor, successful exit
returns the full decoded standard output; a stream-decoding failure is a
`fileError`, a kind distinct from `processError`; and non-zero exit returns
a `processError` whose payload is the full standard error with the literal
note "(run program manually for stack trace)" appended. -/
theorem c6_stdout_else_stderr_contract (cmd_tag : String) (child : ChildOut) :
    (∀ s, child.waitResult = .ok true → child.stdoutRead = .ok s →
      stdout_else_stderr cmd_tag child = .ok s)
    ∧ (∀ e, child.waitResult = .ok true → child.stdoutRead = .error e →
      stdout_else_stderr cmd_tag child =
        .error (.fileError ("'" ++ cmd_tag ++ "': failed to read stdout") e))
    ∧ (∀ s, child.waitResult = .ok false → child.stderrRead = .ok s →
      stdout_else_stderr cmd_tag child =
        .error (.processError ("'" ++ cmd_tag ++ "': exit with status failed")
          (s ++ "(run program manually for stack trace)")))
    ∧ (∀ a b c d, OwlError.fileError a b ≠ OwlError.processError c d) := by
  refine ⟨?_, ?_, ?_, ?_⟩
  · intro s h1 h2; simp [stdout_else_stderr, h1, h2]
  · intro e h1 h2; simp [stdout_else_stderr, h1, h2]
  · intro s h1 h2; simp [stdout_else_stderr, h1, h2]
  · intro a b c d h; cases h

/-- Witness for C6: a concrete successful run returns its stdout, and a
concrete failed run returns the annotated stderr. -/
theorem c6_witness :
    stdout_else_stderr "gcc"
      { stdinWrite := .ok (), waitResult := .ok true
        stdoutRead := .ok "out", stderrRead := .ok "" } = .ok "out"
    ∧ stdout_else_stderr "gcc"
      { stdinWrite := .ok (), waitResult := .ok false
        stdoutRead := .ok "", stderrRead := .ok "boom" } =
      .error (.processError "'gcc': exit with status failed"
        ("boom" ++ "(run program manually for stack trace)")) :=
  ⟨(c6_stdout_else_stderr_contract "gcc" _).1 "out" rfl rfl,
    (c6_stdout_else_stderr_contract "gcc" _).2.2.1 "boom" rfl rfl⟩

/-- C10: for the compile-to-binary shapes (`ComptimeLang` and OCaml), the
recorded target path is the bare file stem — independent of the directory
holding the source — and running such a target executes `./<stem>`. -/
theorem c10_compiled_target_bare_stem :
    (∀ (l : ComptimeLang) (parent parent' target_stem : String),
      (ProgLang.comptime l).target_path parent target_stem = target_stem
      ∧ (ProgLang.comptime l).target_path parent target_stem
          = (ProgLang.comptime l).target_path parent' target_stem)
    ∧ (∀ (l : OcamlLang) (parent target_stem : String),
      (ProgLang.ocaml l).target_path parent target_stem = target_stem)
    ∧ (∀ (env : ExecEnv) (exe : String),
      run_binary env exe = runCmd env "./binary" ("./" ++ exe) [])
    ∧ (∀ (env : ExecEnv) (l : ComptimeLang) (parent stem : String),
      (ProgLang.comptime l).run_it env
        ((ProgLang.comptime l).target_path parent stem) none
        = runCmd env "./binary" ("./" ++ stem) []) :=
  ⟨fun _ _ _ _ => ⟨rfl, rfl⟩, fun _ _ _ => rfl, fun _ _ => rfl, fun _ _ _ _ => rfl⟩

/-- C5: the build orchestrator resolves the profile by file extension — an
unregistered extension yields no build with target = source; a resolved
profile whose version check fails yields a `commandNotFound` naming the
profile, with the build never invoked; and availability is by definition the
success of the version invocation. -/
theorem c5_build_resolution (env : ExecEnv) (prog : String) :
    (check_prog_lang prog = none →
      build_program env prog = (.ok none, false)
      ∧ resolve_build prog none = (prog, none))
    ∧ (∀ lang, check_prog_lang prog = some lang →
      lang.command_exists env = false →
      build_program env prog =
        (.error (.commandNotFound ("'" ++ lang.pname ++ "': command not found")),
          false))
    ∧ (∀ lang : ProgLang, lang.command_exists env = (lang.version env).isOk) := by
  refine ⟨?_, ?_, fun _ => rfl⟩
  · intro h; exact ⟨by simp [build_program, h], rfl⟩
  · intro lang h hv; simp [build_program, h, hv]

/-- Witness for C5: no profile is registered for extension `xyz`, and with
every toolchain's version check failing the `c` build is refused with the
exact `commandNotFound` message. -/
theorem c5_witness :
    build_program failingExecEnv "sol.xyz" = (.ok none, false)
    ∧ build_program failingExecEnv "sol.c" =
        (.error (.commandNotFound "'c': command not found"), false) :=
  ⟨((c5_build_resolution failingExecEnv "sol.xyz").1 rfl).1,
    (c5_build_resolution failingExecEnv "sol.c").2.1 _ rfl rfl⟩

/-- C1: with all three files present and readable and the child run
delivering a captured output, the case is classified Pass (an `ok` carrying
the elapsed duration) exactly when the captured output equals the answer
file contents as plain strings — any difference, whitespace included,
yields the Fail classification instead. -/
theorem c1_pass_iff_exact (env : TestItEnv)
    (target in_file ans_file stdinData ans actual : String) (elapsed : Nat)
    (hT : env.pathExists target = true)
    (hI : env.pathExists in_file = true)
    (hA : env.pathExists ans_file = true)
    (hin : env.readFile in_file = .ok stdinData)
    (hans : env.readFile ans_file = .ok ans)
    (hrun : match check_prog_lang target with
      | some _ => env.versionOk = true
          ∧ env.runWithStdin target stdinData = .ok (actual, elapsed)
      | none => env.runBinaryWithStdin target stdinData = .ok (actual, elapsed)) :
    (test_it env target in_file ans_file = .ok elapsed ↔ actual = ans)
    ∧ (test_it env target in_file ans_file = .error (.testFailure "failed test")
        ↔ actual ≠ ans) := by
  cases hcl : check_prog_lang target with
  | some lang =>
    rw [hcl] at hrun
    obtain ⟨hv, hr⟩ := hrun
    by_cases heq : actual = ans <;>
      simp [test_it, hT, hI, hA, hin, hans, hcl, hv, hr, heq]
  | none =>
    rw [hcl] at hrun
    by_cases heq : actual = ans <;>
      simp [test_it, hT, hI, hA, hin, hans, hcl, hrun, heq]

/-- Witness for C1: a concrete echo program fed "3" against answer "3"
passes in 5ms. -/
theorem c1_witness : test_it c1Env "sol.c" "sol.in" "sol.ans" = .ok 5 :=
  (c1_pass_iff_exact c1Env "sol.c" "sol.in" "sol.ans" "3" "3" "3" 5
    rfl rfl rfl rfl rfl ⟨rfl, rfl⟩).1.mpr rfl

/-- Helper: removing a path that is already absent is the identity. -/
theorem remove_path_of_not_exists (fs : FileSys) (p : String)
    (h : fs.pathExists p = false) : remove_path fs p = .ok fs := by
  simp [remove_path, h]

/-- Helper: a successful removal either left the state unchanged or filtered
the removed path out of the existing set. -/
theorem remove_path_ok_cases (fs fs' : FileSys) (p : String)
    (h : remove_path fs p = .ok fs') :
    fs' = fs ∨ fs' = { fs with existing := fs.existing.filter (fun q => q ≠ p) } := by
  unfold remove_path at h
  split at h
  · injection h with h'; exact Or.inl h'.symm
  · split at h
    · exact Except.noConfusion h
    · injection h with h'; exact Or.inr h'.symm

/-- Helper: a successful removal never makes a path exist. -/
theorem remove_path_mono (fs fs' : FileSys) (p q : String)
    (h : remove_path fs p = .ok fs') (hq : fs'.pathExists q = true) :
    fs.pathExists q = true := by
  rcases remove_path_ok_cases fs fs' p h with heq | heq
  · rw [heq] at hq; exact hq
  · subst heq
    simp only [FileSys.pathExists, List.elem_eq_mem, List.mem_filter,
      decide_eq_true_eq] at hq ⊢
    exact hq.1

/-- Helper: after a successful removal the removed path is absent. -/
theorem remove_path_gone (fs fs' : FileSys) (p : String)
    (h : remove_path fs p = .ok fs') : fs'.pathExists p = false := by
  unfold remove_path at h
  split at h
  · next hcond =>
    injection h with h'
    rw [← h']
    simpa using hcond
  · split at h
    · exact Except.noConfusion h
    · injection h with h'
      rw [← h']
      simp [FileSys.pathExists, List.mem_filter]

/-- Helper: successful bulk removal never makes a path exist. -/
theorem removeAll_mono (ps : List String) :
    ∀ (fs fs' : FileSys), removeAll fs ps = .ok fs' →
      ∀ q, fs'.pathExists q = true → fs.pathExists q = true := by
  induction ps with
  | nil =>
    intro fs fs' h q hq
    simp only [removeAll] at h
    injection h with h'
    rw [h']; exact hq
  | cons p rest ih =>
    intro fs fs' h q hq
    simp only [removeAll] at h
    cases hrp : remove_path fs p with
    | error e => rw [hrp] at h; exact Except.noConfusion h
    | ok fs1 =>
      rw [hrp] at h
      exact remove_path_mono fs fs1 p q hrp (ih fs1 fs' h q hq)

/-- Helper: absence of a path is preserved by successful bulk removal. -/
theorem removeAll_preserves_absent (ps : List String) (fs fs' : FileSys)
    (h : removeAll fs ps = .ok fs') (q : String)
    (hq : fs.pathExists q = false) : fs'.pathExists q = false := by
  cases hq' : fs'.pathExists q with
  | false => rfl
  | true => rw [removeAll_mono ps fs fs' h q hq'] at hq; cases hq

/-- Helper: after a successful bulk removal every listed path is absent. -/
theorem removeAll_gone (ps : List String) :
    ∀ (fs fs' : FileSys), removeAll fs ps = .ok fs' →
      ∀ p ∈ ps, fs'.pathExists p = false := by
  induction ps with
  | nil => intro fs fs' _ p hp; cases hp
  | cons a rest ih =>
    intro fs fs' h p hp
    simp only [removeAll] at h
    cases hrp : remove_path fs a with
    | error e => rw [hrp] at h; exact Except.noConfusion h
    | ok fs1 =>
      rw [hrp] at h
      rcases List.mem_cons.mp hp with hpa | hpr
      · subst hpa
        exact removeAll_preserves_absent rest fs1 fs' h p
          (remove_path_gone fs fs1 p hrp)
      · exact ih fs1 fs' h p hpr

/-- Helper: bulk removal of paths that are all absent is the identity. -/
theorem removeAll_of_absent (ps : List String) :
    ∀ (fs : FileSys), (∀ p ∈ ps, fs.pathExists p = false) →
      removeAll fs ps = .ok fs := by
  induction ps with
  | nil => intro fs _; rfl
  | cons a rest ih =>
    intro fs habs
    have ha : fs.pathExists a = false := habs a (List.mem_cons_self a rest)
    simp only [removeAll, remove_path_of_not_exists fs a ha]
    exact ih fs (fun p hp => habs p (List.mem_cons_of_mem a hp))

/-- Helper: when the target equals the source path, cleanup removes only the
side-effect files. -/
theorem cleanup_program_self (fs : FileSys) (prog : String)
    (bfs : Option (List String)) :
    cleanup_program fs prog prog bfs =
      match bfs with | none => .ok fs | some l => removeAll fs l := by
  simp [cleanup_program]

/-- Helper: when the target differs from the source path, cleanup first
removes the target, then the side-effect files. -/
theorem cleanup_program_ne (fs : FileSys) (prog target : String)
    (htp : target ≠ prog) (bfs : Option (List String)) :
    cleanup_program fs prog target bfs =
      match remove_path fs target with
      | .error e => .error e
      | .ok fs1 =>
        match bfs with | none => .ok fs1 | some l => removeAll fs1 l := by
  simp [cleanup_program, htp]

/-- C7: cleanup deletes the target only when it differs from the source
path and then deletes every side-effect file; removing an absent path is a
no-op; a successful cleanup leaves the target (when distinct from the
source) and all side-effect files absent; and re-running the identical
cleanup on the resulting state succeeds without change (idempotence). -/
theorem c7_cleanup_idempotent :
    (∀ (fs : FileSys) (p : String), fs.pathExists p = false →
      remove_path fs p = .ok fs)
    ∧ (∀ (fs : FileSys) (prog : String) (bfs : Option (List String)),
      cleanup_program fs prog prog bfs =
        match bfs with | none => .ok fs | some l => removeAll fs l)
    ∧ (∀ (fs fs' : FileSys) (prog target : String) (bfs : Option (List String)),
      cleanup_program fs prog target bfs = .ok fs' →
        (target ≠ prog → fs'.pathExists target = false)
        ∧ (∀ ps, bfs = some ps → ∀ p ∈ ps, fs'.pathExists p = false)
        ∧ cleanup_program fs' prog target bfs = .ok fs') := by
  refine ⟨remove_path_of_not_exists, cleanup_program_self, ?_⟩
  intro fs fs' prog target bfs h
  by_cases htp : target = prog
  · subst htp
    rw [cleanup_program_self] at h
    cases bfs with
    | none =>
      injection h with h'
      subst h'
      exact ⟨fun hne => absurd rfl hne, fun ps hps => Option.noConfusion hps,
        cleanup_program_self fs target none⟩
    | some ps =>
      refine ⟨fun hne => absurd rfl hne, ?_, ?_⟩
      · intro qs hqs p hp
        injection hqs with hpq
        subst hpq
        exact removeAll_gone ps fs fs' h p hp
      · rw [cleanup_program_self]
        exact removeAll_of_absent ps fs'
          (fun p hp => removeAll_gone ps fs fs' h p hp)
  · rw [cleanup_program_ne fs prog target htp bfs] at h
    cases hrp : remove_path fs target with
    | error e => rw [hrp] at h; exact Except.noConfusion h
    | ok fs1 =>
      rw [hrp] at h
      have hgone1 : fs1.pathExists target = false :=
        remove_path_gone fs fs1 target hrp
      cases bfs with
      | none =>
        injection h with h'
        subst h'
        refine ⟨fun _ => hgone1, fun ps hps => Option.noConfusion hps, ?_⟩
        rw [cleanup_program_ne fs1 prog target htp none,
          remove_path_of_not_exists fs1 target hgone1]
      | some ps =>
        have hgone : fs'.pathExists target = false :=
          removeAll_preserves_absent ps fs1 fs' h target hgone1
        refine ⟨fun _ => hgone, ?_, ?_⟩
        · intro qs hqs p hp
          injection hqs with hpq
          subst hpq
          exact removeAll_gone ps fs1 fs' h p hp
        · rw [cleanup_program_ne fs' prog target htp (some ps),
            remove_path_of_not_exists fs' target hgone]
          exact removeAll_of_absent ps fs'
            (fun p hp => removeAll_gone ps fs1 fs' h p hp)

/-- Witness for C7: a concrete cleanup removed the built target and object
file, and running the identical cleanup again on the result is a no-op
success. -/
theorem c7_witness :
    cleanup_program ⟨[], []⟩ "sol.c" "sol" (some ["sol.o", "META-INF"]) =
      .ok ⟨[], []⟩ :=
  (c7_cleanup_idempotent.2.2 ⟨["sol", "sol.o"], []⟩ ⟨[], []⟩ "sol.c" "sol"
    (some ["sol.o", "META-INF"]) rfl).2.2

/-- Helper: `filterMap` with a total function is `map`. -/
theorem filterMap_some_eq_map {α β : Type} (f : α → β) :
    ∀ l : List α, l.filterMap (fun x => some (f x)) = l.map f := by
  intro l
  induction l with
  | nil => simp
  | cons a t ih => simp [List.filterMap_cons, ih]

/-- Helper: the aggregation loop counts every evaluated case exactly once. -/
theorem questFold_counts (rs : List (Except OwlError (Bool × Option Nat))) :
    ∀ acc : Nat × Nat × Option Nat,
      (rs.foldl questFoldStep acc).1 + (rs.foldl questFoldStep acc).2.1 =
        acc.1 + acc.2.1 + rs.length := by
  induction rs with
  | nil => intro acc; simp
  | cons r rest ih =>
    intro acc
    rw [List.foldl_cons]
    rw [ih (questFoldStep acc r)]
    have hstep : (questFoldStep acc r).1 + (questFoldStep acc r).2.1 =
        acc.1 + acc.2.1 + 1 := by
      rcases r with e | ⟨b, d⟩
      · simp [questFoldStep]; omega
      · cases b <;> (simp [questFoldStep]; omega)
    rw [List.length_cons]
    omega

/-- Helper: the aggregation loop counts passes and non-passes separately. -/
theorem questFold_failed (rs : List (Except OwlError (Bool × Option Nat))) :
    ∀ acc : Nat × Nat × Option Nat,
      (rs.foldl questFoldStep acc).2.1 =
        acc.2.1 + rs.countP (fun r => ! isPassOutcome r) := by
  induction rs with
  | nil => intro acc; simp
  | cons r rest ih =>
    intro acc
    rw [List.foldl_cons, ih (questFoldStep acc r), List.countP_cons]
    rcases r with e | ⟨b, d⟩
    · simp [questFoldStep, isPassOutcome]; omega
    · cases b
      · simp [questFoldStep, isPassOutcome]; omega
      · simp [questFoldStep, isPassOutcome]

/-- Helper: the aggregated duration is the combined elapsed time of the
passing cases that reported one. -/
theorem questFold_duration (rs : List (Except OwlError (Bool × Option Nat))) :
    ∀ (p f : Nat) (td : Option Nat),
      (rs.foldl questFoldStep (p, f, td)).2.2 =
        match td with
        | none => optDurationSum (rs.filterMap passElapsed)
        | some d => some (d + (rs.filterMap passElapsed).sum) := by
  induction rs with
  | nil =>
    intro p f td
    cases td <;> simp [optDurationSum]
  | cons r rest ih =>
    intro p f td
    rw [List.foldl_cons]
    rcases r with e | ⟨b, d⟩
    · have : questFoldStep (p, f, td) (.error e) = (p, f + 1, td) := rfl
      rw [this, ih]
      cases td <;> simp [passElapsed, List.filterMap_cons]
    · cases b with
      | false =>
        have : questFoldStep (p, f, td) (.ok (false, d)) = (p, f + 1, td) := rfl
        rw [this, ih]
        cases td <;> simp [passElapsed, List.filterMap_cons]
      | true =>
        cases d with
        | none =>
          have hstep : questFoldStep (p, f, td) (.ok (true, none)) =
              (p + 1, f, td) := by
            cases td <;> rfl
          rw [hstep, ih]
          cases td <;> simp [passElapsed, List.filterMap_cons]
        | some e =>
          cases td with
          | none =>
            have hstep : questFoldStep (p, f, none) (.ok (true, some e)) =
                (p + 1, f, some e) := rfl
            rw [hstep, ih]
            simp [passElapsed, List.filterMap_cons, optDurationSum]
          | some d0 =>
            have hstep : questFoldStep (p, f, some d0) (.ok (true, some e)) =
                (p + 1, f, some (d0 + e)) := rfl
            rw [hstep, ih]
            simp [passElapsed, List.filterMap_cons]
            omega

/-- Helper: the full observable trace of a quest run that reaches the
evaluation loop (directory present, program present, build and discovery
successful). -/
theorem quest_eval (env : QuestEnv) (quest_path prog : String)
    (case_id : Option Nat) (use_hints : Bool) (bl : Option BuildLog)
    (test_cases : List String)
    (hdir : env.questDirExists = true)
    (hprog : env.progExists = true)
    (hbuild : env.buildResult = .ok bl)
    (hfind : find_by_ext env.dirTree quest_path "in" = .ok test_cases) :
    quest env quest_path prog case_id use_hints =
      { result :=
          match env.cleanupResult with
          | .error ce => .error ce
          | .ok _ =>
            if (questAggregate ((questSelect test_cases case_id).map (fun pc =>
                quest_it env.caseEnv (resolve_build prog bl).1 pc.2 pc.1
                  test_cases.length use_hints))).2.1 > 0 then
              .error (.testFailure "test failures")
            else .ok ()
        evaluated := (questSelect test_cases case_id).map (fun pc => pc.1)
        passed := (questAggregate ((questSelect test_cases case_id).map (fun pc =>
          quest_it env.caseEnv (resolve_build prog bl).1 pc.2 pc.1
            test_cases.length use_hints))).1
        failed := (questAggregate ((questSelect test_cases case_id).map (fun pc =>
          quest_it env.caseEnv (resolve_build prog bl).1 pc.2 pc.1
            test_cases.length use_hints))).2.1
        totalDuration := (questAggregate ((questSelect test_cases case_id).map (fun pc =>
          quest_it env.caseEnv (resolve_build prog bl).1 pc.2 pc.1
            test_cases.length use_hints))).2.2
        summaryPrinted := true
        cleanupAttempted := true } := by
  simp [quest, hdir, hprog, hbuild, hfind]

/-- C3 (amended): a quest run that reaches its evaluation loop counts every
selected case exactly once (`passed + failed` equals the selected count),
accumulates elapsed time over the passing runs only, and — provided the
final cleanup succeeds — returns success exactly when no case failed; a
cleanup error is returned as the result instead, even with zero failures. -/
theorem c3_aggregation_invariant (env : QuestEnv) (quest_path prog : String)
    (case_id : Option Nat) (use_hints : Bool) (bl : Option BuildLog)
    (test_cases : List String)
    (hdir : env.questDirExists = true)
    (hprog : env.progExists = true)
    (hbuild : env.buildResult = .ok bl)
    (hfind : find_by_ext env.dirTree quest_path "in" = .ok test_cases) :
    (quest env quest_path prog case_id use_hints).passed
        + (quest env quest_path prog case_id use_hints).failed
      = (questSelect test_cases case_id).length
    ∧ (quest env quest_path prog case_id use_hints).totalDuration
      = optDurationSum (((questSelect test_cases case_id).map (fun pc =>
          quest_it env.caseEnv (resolve_build prog bl).1 pc.2 pc.1
            test_cases.length use_hints)).filterMap passElapsed)
    ∧ (env.cleanupResult = .ok () →
        ((quest env quest_path prog case_id use_hints).result = .ok ()
          ↔ (quest env quest_path prog case_id use_hints).failed = 0))
    ∧ (∀ ce, env.cleanupResult = .error ce →
        (quest env quest_path prog case_id use_hints).result = .error ce) := by
  rw [quest_eval env quest_path prog case_id use_hints bl test_cases
    hdir hprog hbuild hfind]
  refine ⟨?_, ?_, ?_, ?_⟩
  · have h := questFold_counts ((questSelect test_cases case_id).map (fun pc =>
      quest_it env.caseEnv (resolve_build prog bl).1 pc.2 pc.1
        test_cases.length use_hints)) (0, 0, none)
    simpa [questAggregate] using h
  · have h := questFold_duration ((questSelect test_cases case_id).map (fun pc =>
      quest_it env.caseEnv (resolve_build prog bl).1 pc.2 pc.1
        test_cases.length use_hints)) 0 0 none
    simpa [questAggregate] using h
  · intro hclean
    rw [hclean]
    by_cases hf : (questAggregate ((questSelect test_cases case_id).map (fun pc =>
        quest_it env.caseEnv (resolve_build prog bl).1 pc.2 pc.1
          test_cases.length use_hints))).2.1 > 0
    · simp [hf]; omega
    · simp [hf]; omega
  · intro ce hclean
    rw [hclean]

/-- Counterexample for C3: a quest run whose single case passes but whose
final cleanup fails returns a failure result although `failed = 0`,
refuting "failure if and only if failed > 0" as stated. -/
theorem c3_counterexample :
    (quest c3Env "q" "sol.c" none false).failed = 0
    ∧ (quest c3Env "q" "sol.c" none false).result =
        .error (.fileError "Failed to remove file 'sol'" "os error") := ⟨rfl, rfl⟩

/-- Witness for C3: the amended aggregation facts at a concrete passing
run. -/
theorem c3_witness :
    (quest c3Env "q" "sol.c" none false).passed
        + (quest c3Env "q" "sol.c" none false).failed = 1
    ∧ (quest c3Env "q" "sol.c" none false).result =
        .error (.fileError "Failed to remove file 'sol'" "os error") := by
  have h := c3_aggregation_invariant c3Env "q" "sol.c" none false none
    ["q/1.in"] rfl rfl rfl rfl
  exact ⟨h.1.trans rfl, h.2.2.2 _ rfl⟩

/-- C4: in a quest run that reaches its evaluation loop, every selected
case is evaluated (a per-case error does not stop the batch), each case that
does not pass — including one whose evaluation returns an error — adds one
to `failed`, and when cleanup succeeds the run's result is either success or
the aggregate `testFailure`, never an individual case's error. -/
theorem c4_per_case_isolation (env : QuestEnv) (quest_path prog : String)
    (case_id : Option Nat) (use_hints : Bool) (bl : Option BuildLog)
    (test_cases : List String)
    (hdir : env.questDirExists = true)
    (hprog : env.progExists = true)
    (hbuild : env.buildResult = .ok bl)
    (hfind : find_by_ext env.dirTree quest_path "in" = .ok test_cases) :
    (quest env quest_path prog case_id use_hints).evaluated
      = (questSelect test_cases case_id).map (fun pc => pc.1)
    ∧ (quest env quest_path prog case_id use_hints).failed
      = ((questSelect test_cases case_id).map (fun pc =>
          quest_it env.caseEnv (resolve_build prog bl).1 pc.2 pc.1
            test_cases.length use_hints)).countP (fun r => ! isPassOutcome r)
    ∧ (env.cleanupResult = .ok () →
        (quest env quest_path prog case_id use_hints).result = .ok ()
        ∨ (quest env quest_path prog case_id use_hints).result =
            .error (.testFailure "test failures")) := by
  rw [quest_eval env quest_path prog case_id use_hints bl test_cases
    hdir hprog hbuild hfind]
  refine ⟨rfl, ?_, ?_⟩
  · have h := questFold_failed ((questSelect test_cases case_id).map (fun pc =>
      quest_it env.caseEnv (resolve_build prog bl).1 pc.2 pc.1
        test_cases.length use_hints)) (0, 0, none)
    simpa [questAggregate] using h
  · intro hclean
    rw [hclean]
    by_cases hf : (questAggregate ((questSelect test_cases case_id).map (fun pc =>
        quest_it env.caseEnv (resolve_build prog bl).1 pc.2 pc.1
          test_cases.length use_hints))).2.1 > 0
    · simp [hf]
    · simp [hf]

/-- Witness for C4: with two discovered cases, the first erroring inside its
evaluation (mismatch plus failed hint chain) and the second passing, both
cases are evaluated, the error counts as one failure, and the run returns
the aggregate test failure rather than the per-case error. -/
theorem c4_witness :
    (quest c4Env "q" "sol.c" none true).evaluated = [1, 2]
    ∧ (quest c4Env "q" "sol.c" none true).failed = 1
    ∧ (quest c4Env "q" "sol.c" none true).result =
        .error (.testFailure "test failures") := by
  have h := c4_per_case_isolation c4Env "q" "sol.c" none true none
    ["q/1.in", "q/2.in"] rfl rfl rfl rfl
  refine ⟨h.1.trans rfl, h.2.1.trans rfl, ?_⟩
  rcases h.2.2 rfl with hok | hfail
  · exact absurd hok (by intro hc; exact Except.noConfusion (hc.symm.trans rfl))
  · exact hfail

/-- C9: when the walked quest directory contains no file with extension
`in`, discovery fails with the "No matches found" `fileError` and the quest
invocation aborts with that error: no case is evaluated, no summary is
printed, and the counters stay zero rather than reporting a completed
0-passed/0-failed run. -/
theorem c9_empty_discovery_aborts (env : QuestEnv) (quest_path prog : String)
    (case_id : Option Nat) (use_hints : Bool) (bl : Option BuildLog)
    (files : List String)
    (hdir : env.questDirExists = true)
    (hprog : env.progExists = true)
    (hbuild : env.buildResult = .ok bl)
    (htree : env.dirTree = .ok files)
    (hnone : files.filter (fun file => pathExtension file = some "in") = []) :
    quest env quest_path prog case_id use_hints =
      questAbort (.fileError
        ("No matches found in '" ++ quest_path ++ "' with ext matching '"
          ++ "in" ++ "'")
        ("'" ++ toString files.length ++ "' files checked"))
    ∧ (quest env quest_path prog case_id use_hints).evaluated = []
    ∧ (quest env quest_path prog case_id use_hints).summaryPrinted = false
    ∧ (quest env quest_path prog case_id use_hints).passed = 0
    ∧ (quest env quest_path prog case_id use_hints).failed = 0 := by
  have hq : quest env quest_path prog case_id use_hints =
      questAbort (.fileError
        ("No matches found in '" ++ quest_path ++ "' with ext matching '"
          ++ "in" ++ "'")
        ("'" ++ toString files.length ++ "' files checked")) := by
    simp [quest, hdir, hprog, hbuild, find_by_ext, htree, hnone]
  exact ⟨hq, by rw [hq]; rfl, by rw [hq]; rfl, by rw [hq]; rfl, by rw [hq]; rfl⟩

/-- Witness for C9: a quest directory holding only a markdown file and an
answer file yields the hard discovery error with zero cases evaluated. -/
theorem c9_witness :
    quest c9Env "q" "sol.c" none false =
      questAbort (.fileError "No matches found in 'q' with ext matching 'in'"
        ("'" ++ toString (2 : Nat) ++ "' files checked")) :=
  (c9_empty_discovery_aborts c9Env "q" "sol.c" none false none
    ["q/readme.md", "q/1.ans"] rfl rfl rfl rfl rfl).1

/-- Helper: the `usize` width as a numeral. -/
theorem U64_eq : U64 = 18446744073709551616 := by norm_num [U64]

/-- Helper: the width is positive. -/
theorem one_lt_U64 : 1 < U64 := by norm_num [U64]

/-- Helper: wrapping subtraction of one from a positive value below the
width is plain subtraction. -/
theorem usub_one_eq (k : Nat) (h1 : 1 ≤ k) (h2 : k < U64) :
    usub k 1 = k - 1 := by
  have hU : 1 < U64 := one_lt_U64
  unfold usub
  rw [Nat.mod_eq_of_lt hU]
  have heq : k + (U64 - 1) = (k - 1) + U64 := by omega
  rw [heq, Nat.add_mod_right]
  exact Nat.mod_eq_of_lt (by omega)

/-- Helper: the `take` window of the single-case branch always has width
one. -/
theorem usub_uadd_one (d : Nat) (hd : d < U64) : usub (uadd d 1) d = 1 := by
  have hU : 1 < U64 := one_lt_U64
  unfold usub uadd
  rw [Nat.mod_eq_of_lt hd]
  by_cases hcase : d + 1 < U64
  · rw [Nat.mod_eq_of_lt hcase]
    have heq : d + 1 + (U64 - d) = 1 + U64 := by omega
    rw [heq, Nat.add_mod_right]
    exact Nat.mod_eq_of_lt hU
  · have hd1 : d + 1 = U64 := by omega
    rw [hd1, Nat.mod_self]
    have heq : 0 + (U64 - d) = 1 := by omega
    rw [heq]
    exact Nat.mod_eq_of_lt hU

/-- Helper: wrapping subtraction of zero below the width is the identity. -/
theorem usub_zero_eq (n : Nat) (h : n < U64) : usub n 0 = n := by
  unfold usub
  rw [Nat.zero_mod, Nat.sub_zero, Nat.add_mod_right]
  exact Nat.mod_eq_of_lt h

/-- Helper: wrapping increment below the width is plain increment. -/
theorem uadd_one_eq (a : Nat) (h : a + 1 < U64) : uadd a 1 = a + 1 := by
  unfold uadd
  exact Nat.mod_eq_of_lt h

/-- Helper: with no requested case id, the quest loop evaluates every
discovered case at its 1-based position. -/
theorem questSelect_none {α : Type} (cases : List α)
    (hN : cases.length < U64) :
    questSelect cases none = cases.enum.map (fun p => (p.1 + 1, p.2)) := by
  simp only [questSelect]
  rw [usub_zero_eq cases.length hN, List.drop_zero]
  have hlen : cases.enum.length = cases.length := @List.enum_length _ cases
  rw [← hlen, List.take_length]
  have hmem : ∀ p ∈ cases.enum, (fun p : Nat × α => (uadd p.1 1, p.2)) p =
      (fun p : Nat × α => (p.1 + 1, p.2)) p := by
    intro p hp
    have hlt : p.1 < cases.length := by
      have := List.mem_enum_iff_getElem?.mp hp
      exact (List.getElem?_eq_some.mp this).1
    simp only
    rw [uadd_one_eq p.1 (by omega)]
  calc (cases.enum.filterMap (fun p => some (uadd p.1 1, p.2)))
      = cases.enum.map (fun p => (uadd p.1 1, p.2)) :=
        filterMap_some_eq_map (fun p : Nat × α => (uadd p.1 1, p.2)) cases.enum
    _ = cases.enum.map (fun p => (p.1 + 1, p.2)) := List.map_congr_left hmem

/-- Helper: a requested case id within range selects exactly the case at
that 1-based position (the vestigial modulo filter always holds there). -/
theorem questSelect_some_in_range {α : Type} (cases : List α) (k : Nat)
    (h1 : 1 ≤ k) (h2 : k ≤ cases.length) (hN : cases.length < U64) :
    questSelect cases (some k) =
      ((cases.drop (k - 1)).take 1).map (fun a => (k, a)) := by
  simp only [questSelect]
  have hkU : k < U64 := by omega
  rw [usub_one_eq k h1 hkU, usub_uadd_one k hkU]
  have hk1 : k - 1 < cases.length := by omega
  have hk1e : k - 1 < cases.enum.length := by
    rw [@List.enum_length _ cases]; omega
  rw [List.drop_eq_getElem_cons hk1e, List.drop_eq_getElem_cons hk1]
  rw [List.getElem_enum cases (k - 1) hk1e]
  have hcount : uadd (k - 1) 1 = k := by
    rw [uadd_one_eq (k - 1) (by omega)]
    omega
  simp only [List.take_succ_cons, List.take_zero, List.filterMap_cons,
    List.map_cons, List.map_nil, hcount]
  simp

/-- Helper: a requested case id beyond the number of discovered cases
selects nothing (the skip outruns the list; there is no wrap-around). -/
theorem questSelect_some_out_of_range {α : Type} (cases : List α) (k : Nat)
    (h2 : cases.length < k) (hk : k < U64) :
    questSelect cases (some k) = [] := by
  simp only [questSelect]
  rw [usub_one_eq k (by omega) hk]
  have hdrop : cases.enum.drop (k - 1) = [] := by
    apply List.drop_eq_nil_of_le
    rw [@List.enum_length _ cases]
    omega
  rw [hdrop]
  simp

/-- Helper: a requested case id of zero underflows the `usize` start index
(release-build wrap-around), so the skip outruns the list and nothing is
selected. -/
theorem questSelect_zero {α : Type} (cases : List α)
    (hN : cases.length < U64) :
    questSelect cases (some 0) = [] := by
  simp only [questSelect]
  have hs : usub 0 1 = U64 - 1 := by
    unfold usub
    rw [Nat.mod_eq_of_lt one_lt_U64, Nat.zero_add]
    exact Nat.mod_eq_of_lt (by omega)
  have hdrop : cases.enum.drop (usub 0 1) = [] := by
    apply List.drop_eq_nil_of_le
    rw [@List.enum_length _ cases, hs, U64_eq]
    rw [U64_eq] at hN
    omega
  rw [hdrop]
  simp

/-- C2 (amended): with no requested case id every discovered case is run at
its 1-based position; a requested id `k` with `1 ≤ k ≤ N` selects exactly
the case at position `k` (which trivially satisfies `k mod N = k mod N`);
a requested id beyond `N` selects nothing — there is no modular wrap-around
— and a requested id of `0` selects nothing rather than meaning "run all"
(the no-filter behaviour belongs to the absent case id alone). -/
theorem c2_selection_direct (α : Type) (cases : List α) (k : Nat)
    (hN : cases.length < U64) (hk : k < U64) :
    questSelect cases none = cases.enum.map (fun p => (p.1 + 1, p.2))
    ∧ (1 ≤ k → k ≤ cases.length →
        (questSelect cases (some k)).map Prod.fst = [k]
        ∧ (questSelect cases (some k)).map Prod.snd = (cases.drop (k - 1)).take 1)
    ∧ (cases.length < k → questSelect cases (some k) = [])
    ∧ questSelect cases (some 0) = [] := by
  refine ⟨questSelect_none cases hN, ?_, ?_, questSelect_zero cases hN⟩
  · intro h1 h2
    rw [questSelect_some_in_range cases k h1 h2 hN]
    have hk1 : k - 1 < cases.length := by omega
    have hmin : 1 ⊓ (cases.length - (k - 1)) = 1 := by omega
    refine ⟨?_, ?_⟩ <;> simp [hmin]
  · intro h2
    exact questSelect_some_out_of_range cases k h2 hk

/-- Counterexample for C2: with three discovered cases and requested id 5,
position 2 satisfies `2 mod 3 = 5 mod 3`, yet the code selects nothing; and
a requested id of 0 selects nothing instead of running all cases. -/
theorem c2_counterexample :
    questSelect (["q/1.in", "q/2.in", "q/3.in"] : List String) (some 5) = []
    ∧ 2 % 3 = 5 % 3
    ∧ questSelect (["q/1.in", "q/2.in", "q/3.in"] : List String) (some 0) = [] := by
  refine ⟨by decide, by decide, by decide⟩

/-- Witness for C2: requested id 2 of three cases selects exactly the case
at position 2. -/
theorem c2_witness :
    (questSelect (["q/1.in", "q/2.in", "q/3.in"] : List String) (some 2)).map
      Prod.fst = [2] :=
  ((c2_selection_direct String ["q/1.in", "q/2.in", "q/3.in"] 2
    (by decide) (by decide)).2.1 (by decide) (by decide)).1

/-- C8 (amended): for a recognized language, once the build phase succeeds
the cleanup call is reached on both the run-success and run-failure exit
paths of `run_program` and after the evaluation loop of `quest`; but a
build error returns before any cleanup is attempted, and when the cleanup
itself fails its error becomes the invocation's result, replacing the
original run error or test failure. -/
theorem c8_cleanup_on_exit_paths :
    (∀ (env : RunProgEnv) (prog : String),
      env.progExists = true → (check_prog_lang prog).isSome = true →
      ∀ bl : Option BuildLog, env.buildResult = .ok bl →
        (run_program env prog).2 = true
        ∧ (∀ ce, env.cleanupResult = .error ce →
            (run_program env prog).1 = .error ce)
        ∧ (env.cleanupResult = .ok () →
            (run_program env prog).1 = env.runResult.map (fun _ => ())))
    ∧ (∀ (env : RunProgEnv) (prog : String),
      env.progExists = true → (check_prog_lang prog).isSome = true →
      ∀ e : OwlError, env.buildResult = .error e →
        run_program env prog = (.error e, false))
    ∧ (∀ (qenv : QuestEnv) (qp prog : String) (case_id : Option Nat)
        (uh : Bool) (bl : Option BuildLog) (tcs : List String),
      qenv.questDirExists = true → qenv.progExists = true →
      qenv.buildResult = .ok bl → find_by_ext qenv.dirTree qp "in" = .ok tcs →
        (quest qenv qp prog case_id uh).cleanupAttempted = true
        ∧ (∀ ce, qenv.cleanupResult = .error ce →
            (quest qenv qp prog case_id uh).result = .error ce)) := by
  refine ⟨?_, ?_, ?_⟩
  · intro env prog hprog hlang bl hbuild
    cases hcl : check_prog_lang prog with
    | none => rw [hcl] at hlang; cases hlang
    | some lang =>
      refine ⟨?_, ?_, ?_⟩
      · cases hc : env.cleanupResult <;>
          simp [run_program, hprog, hcl, hbuild, hc]
      · intro ce hce; simp [run_program, hprog, hcl, hbuild, hce]
      · intro hce; simp [run_program, hprog, hcl, hbuild, hce]
  · intro env prog hprog hlang e hbuild
    cases hcl : check_prog_lang prog with
    | none => rw [hcl] at hlang; cases hlang
    | some lang => simp [run_program, hprog, hcl, hbuild]
  · intro qenv qp prog case_id uh bl tcs hdir hprog hbuild hfind
    rw [quest_eval qenv qp prog case_id uh bl tcs hdir hprog hbuild hfind]
    exact ⟨rfl, fun ce hce => by simp [hce]⟩

/-- Counterexample for C8: after a build error `run_program` returns without
reaching cleanup (refuting "cleanup is attempted on every exit path"), and
when cleanup fails after a failed run the cleanup error replaces the run
error (refuting "never masks the original error"). -/
theorem c8_counterexample :
    run_program
      { progExists := true
        buildResult := .error (.processError "'build': exit with status failed" "boom")
        runResult := .ok ("", 0)
        runBinaryResult := .ok ("", 0)
        cleanupResult := .error (.fileError "Failed to remove file 'sol'" "os error") }
      "sol.c"
      = (.error (.processError "'build': exit with status failed" "boom"), false)
    ∧ run_program
      { progExists := true
        buildResult := .ok none
        runResult := .error (.processError "'./binary': exit with status failed" "crash")
        runBinaryResult := .ok ("", 0)
        cleanupResult := .error (.fileError "Failed to remove file 'sol'" "os error") }
      "sol.c"
      = (.error (.fileError "Failed to remove file 'sol'" "os error"), true) :=
  ⟨rfl, rfl⟩

/-- Witness for C8: a successful build reaches cleanup in `run_program`, and
in a quest run whose cleanup fails the cleanup error is the returned
result. -/
theorem c8_witness :
    (run_program c8RunEnv "sol.c").2 = true
    ∧ (quest c8QuestEnv "q" "sol.c" none false).result =
        .error (.fileError "Failed to remove file 'sol'" "os error") :=
  ⟨(c8_cleanup_on_exit_paths.1 c8RunEnv "sol.c" rfl rfl none rfl).1,
    (c8_cleanup_on_exit_paths.2.2 c8QuestEnv "q" "sol.c" none false none
      ["q/1.in"] rfl rfl rfl rfl).2 _ rfl⟩

end AlgoOwls
